import Mathlib

/-!
Verification of the chunked-upload core of resumable.js
(pointcloudtechnology/resumable.js).

The development shallowly embeds the state and operations of
`ResumableChunk` (src/resumableChunk.ts), `ResumableFile`
(src/resumableFile.ts) and the `Resumable` scheduler (dist/main.js,
the categorized build) and proves properties of the embedded code.
Machine numbers are modelled by `Nat` (byte counts, HTTP codes) and
`ℚ` (progress fractions); the fallible intake path is modelled with
`Except`.
-/

namespace ResumableJs

/-- Status enumeration mirroring `ResumableChunkStatus` from types.ts. -/
inductive ChunkStatus where
  | pending
  | uploading
  | success
  | error
deriving DecidableEq, Repr

/-- Observable state of the underlying `XMLHttpRequest` that the chunk code
inspects: `readyState` (4 = DONE) and the HTTP `status` (0 while unfinished,
and also 0 after a network error or timeout). -/
structure Xhr where
  readyState : Nat
  status : Nat
deriving DecidableEq, Repr

/-- The configuration options (subset relevant to the claims) that
`setInstanceProperties` copies onto every chunk / file instance, with the
source defaults. -/
structure ChunkOptions where
  chunkSize : Nat := 1024 * 1024
  maxChunkRetries : Nat := 100
  permanentErrors : List Nat := [400, 401, 403, 404, 409, 415, 500, 501]
deriving DecidableEq, Repr

/-- Instance state of a `ResumableChunk`; option fields are stored on the
instance exactly as `Object.assign(this, options)` does. -/
structure ChunkState where
  fileObjSize : Nat
  offset : Nat
  chunkSize : Nat
  startByte : Nat
  endByte : Nat
  tested : Bool
  retries : Nat
  pendingRetry : Bool
  isMarkedComplete : Bool
  loaded : Nat
  xhr : Option Xhr
  maxChunkRetries : Nat
  permanentErrors : List Nat
deriving DecidableEq, Repr

/-- The `ResumableChunk` constructor: stores the options, the owning file's
size and the offset, and computes `startByte = offset * chunkSize`,
`endByte = min(fileObjSize, (offset + 1) * chunkSize)`. -/
def mkChunk (opts : ChunkOptions) (fileObjSize offset : Nat) : ChunkState where
  fileObjSize := fileObjSize
  offset := offset
  chunkSize := opts.chunkSize
  startByte := offset * opts.chunkSize
  endByte := min fileObjSize ((offset + 1) * opts.chunkSize)
  tested := false
  retries := 0
  pendingRetry := false
  isMarkedComplete := false
  loaded := 0
  xhr := none
  maxChunkRetries := opts.maxChunkRetries
  permanentErrors := opts.permanentErrors

/-- The `abort()` method: cancel any request and clear the request handle. -/
def chunkAbort (c : ChunkState) : ChunkState := { c with xhr := none }

/-- The `markComplete()` method. -/
def markComplete (c : ChunkState) : ChunkState := { c with isMarkedComplete := true }

/-- The `status` getter of `ResumableChunk`. It is not a pure read: in the
final fallthrough branch the source calls `this.abort()` before reporting
`PENDING`, so the getter returns both the status and the (possibly updated)
chunk state. -/
def chunkStatus (c : ChunkState) : ChunkStatus × ChunkState :=
  if c.pendingRetry then (.uploading, c)
  else if c.isMarkedComplete then (.success, c)
  else
    match c.xhr with
    | none => (.pending, c)
    | some x =>
      if x.readyState < 4 then (.uploading, c)
      else if x.status = 200 ∨ x.status = 201 then (.success, c)
      else if x.status ∈ c.permanentErrors ∨ c.maxChunkRetries ≤ c.retries then (.error, c)
      else (.pending, chunkAbort c)

/-- The chunk's share of the whole file, `(endByte - startByte) / fileSize`. -/
def chunkShare (c : ChunkState) : ℚ :=
  ((c.endByte : ℚ) - (c.startByte : ℚ)) / (c.fileObjSize : ℚ)

/-- The condition `!this.xhr || !this.xhr.status` of `progress()`:
no request handle, or a request handle without an HTTP status yet. -/
def xhrNoStatus (c : ChunkState) : Bool :=
  match c.xhr with
  | none => true
  | some x => x.status == 0

/-- The `progress(relative)` method of `ResumableChunk`.  The `0.95`
discount of the source is the exact rational `19/20`.  Because the method
reads the (side-effecting) `status` getter, it returns the updated state
as well. -/
def chunkProgress (c : ChunkState) (relative : Bool) : ℚ × ChunkState :=
  let factor : ℚ := if relative then chunkShare c else 1
  if c.pendingRetry then (0, c)
  else
    let factor := if xhrNoStatus c && !c.isMarkedComplete then factor * (19 / 20) else factor
    match chunkStatus c with
    | (.success, c2) => (factor, c2)
    | (.error, c2) => (factor, c2)
    | (.pending, c2) => (0, c2)
    | (.uploading, c2) =>
      ((c.loaded : ℚ) / ((c.endByte : ℚ) - (c.startByte : ℚ)) * factor, c2)

/-- `Math.max(Math.ceil(size / chunkSize), 1)` for natural inputs
(`Math.ceil(a / b) = (a + b - 1) / b` in integer arithmetic, `b > 0`). -/
def jsCeilDiv (a b : Nat) : Nat := (a + b - 1) / b

/-- The chunk list built by `ResumableFile.bootstrap()`:
one `ResumableChunk` per offset `0 ≤ offset < max(ceil(size/chunkSize), 1)`. -/
def bootstrapChunks (opts : ChunkOptions) (size : Nat) : List ChunkState :=
  (List.range (max (jsCeilDiv size opts.chunkSize) 1)).map (fun offset => mkChunk opts size offset)

/-- Events fired by `ResumableFile` (file scope) that the claims mention. -/
inductive FileEvent where
  | chunkError
  | chunkCancel
  | fileProgress
  | fileError
  | fileCancel
deriving DecidableEq, Repr

/-- Instance state of a `ResumableFile`. -/
structure FileState where
  size : Nat
  opts : ChunkOptions
  chunks : List ChunkState
  error : Bool
  prevProgress : ℚ
  isPaused : Bool
deriving DecidableEq, Repr

/-- The state effect of `bootstrap()`: abort and discard any existing chunks,
clear the error flag and the sticky progress floor, and rebuild the chunk
list from the file. -/
def bootstrapState (s : FileState) : FileState :=
  { s with
    error := false
    chunks := bootstrapChunks s.opts s.size
    prevProgress := 0 }

/-- The `ResumableFile` constructor (chunking happens via `bootstrap()`). -/
def mkFile (opts : ChunkOptions) (size : Nat) : FileState :=
  bootstrapState
    { size := size, opts := opts, chunks := [], error := false, prevProgress := 0,
      isPaused := false }

/-- `ResumableFile.abort()`: abort every chunk whose `status` reads
`UPLOADING` (the read itself may reset a chunk, see `chunkStatus`), and fire
one `fileProgress` event if at least one chunk was aborted. -/
def fileAbort (s : FileState) : FileState × List FileEvent :=
  let stepped := s.chunks.map (fun c =>
    let sc := chunkStatus c
    if sc.1 = .uploading then (chunkAbort sc.2, true) else (sc.2, false))
  ({ s with chunks := stepped.map Prod.fst },
    if 0 < stepped.countP Prod.snd then [FileEvent.fileProgress] else [])

/-- The `chunkError` handler installed by `bootstrap()`: re-fire the chunk
error, abort the file, set the error flag, discard all chunks, fire
`fileError`. -/
def errorHandler (s : FileState) : FileState × List FileEvent :=
  let ab := fileAbort s
  ({ ab.1 with error := true, chunks := [] },
    FileEvent.chunkError :: ab.2 ++ [FileEvent.fileError])

/-- `ResumableFile.cancel()`: abort every uploading chunk (firing
`chunkCancel` for each), discard the chunk array, fire `fileCancel` and a
`fileProgress` event. -/
def fileCancel (s : FileState) : FileState × List FileEvent :=
  let stepped := s.chunks.map (fun c =>
    let sc := chunkStatus c
    if sc.1 = .uploading then (chunkAbort sc.2, true) else (sc.2, false))
  ({ s with chunks := [] },
    List.replicate (stepped.countP Prod.snd) FileEvent.chunkCancel
      ++ [FileEvent.fileCancel, FileEvent.fileProgress])

/-- The per-chunk loop of `ResumableFile.progress()`: for each chunk, read
its `status` (side effects included), record whether it is `ERROR`, then add
`chunk.progress(true)` (side effects included). Returns the sum, the error
flag and the updated chunks. -/
def progressFold : List ChunkState → ℚ × Bool × List ChunkState
  | [] => (0, false, [])
  | c :: cs =>
    let sc := chunkStatus c
    let p := chunkProgress sc.2 true
    let rest := progressFold cs
    (p.1 + rest.1, (sc.1 == .error) || rest.2.1, p.2 :: rest.2.2)

/-- `ResumableFile.progress()`: returns 1 in the error state, else sums the
size-weighted chunk progresses, treats any `ERROR` chunk as 1, clamps values
above `0.99999` up to 1, and takes (and persists) the max with the previous
result. -/
def progressCall (s : FileState) : ℚ × FileState :=
  if s.error then (1, s)
  else
    let f := progressFold s.chunks
    let ret1 : ℚ := if f.2.1 then 1 else if (99999 / 100000 : ℚ) < f.1 then 1 else f.1
    let ret2 := max s.prevProgress ret1
    (ret2, { s with chunks := f.2.2, prevProgress := ret2 })

/-- The value of the `isComplete` getter: no chunk reads `PENDING` or
`UPLOADING`. -/
def isCompleteV (s : FileState) : Bool :=
  ! s.chunks.any (fun c =>
    (chunkStatus c).1 == .pending || (chunkStatus c).1 == .uploading)

/-- The marking loop of `markChunksCompleted`: `markComplete` on the chunks
with index `< n` (the second argument carries the current index). -/
def markUpTo (n : Nat) : List ChunkState → Nat → List ChunkState
  | [], _ => []
  | c :: cs, i => (if i < n then markComplete c else c) :: markUpTo n cs (i + 1)

/-- `ResumableFile.markChunksCompleted(chunkNumber)`: a no-op when
`chunks.length <= chunkNumber`, else marks the chunks `[0, chunkNumber)`. -/
def markChunksCompleted (s : FileState) (chunkNumber : Nat) : FileState :=
  if s.chunks.length ≤ chunkNumber then s
  else { s with chunks := markUpTo chunkNumber s.chunks 0 }

/-- Operations that can hit a `ResumableFile` between two `progress()`
calls: its own public methods and the transport callbacks of its chunks. -/
inductive FileOp where
  | abortOp
  | cancelOp
  | setPaused (b : Bool)
  | markCompletedOp (n : Nat)
  | chunkErrorOp
  | retryOp
  | sendStartOp (i : Nat)
  | xhrProgressOp (i : Nat) (bytes : Nat)
  | xhrDoneOp (i : Nat) (code : Nat)
  | chunkRetryStepOp (i : Nat) (delayed : Bool)
deriving DecidableEq, Repr

/-- Update the chunk at index `i` in place. -/
def updChunk (s : FileState) (i : Nat) (f : ChunkState → ChunkState) : FileState :=
  { s with chunks := s.chunks.mapIdx (fun j c => if j = i then f c else c) }

/-- Semantics of the operations of `FileOp`, each translated from its
source method: `abort()`, `cancel()`, pausing, `markChunksCompleted`, the
`chunkError` handler, `retry()` (which calls `bootstrap()`), the start of
`send()` (fresh request handle, `loaded = 0`, `pendingRetry = false`), an
upload-progress callback, request completion with an HTTP status code, and
the retry step of the done handler (abort, increment `retries`, set
`pendingRetry` when a retry interval is configured). -/
def applyOp (s : FileState) : FileOp → FileState
  | .abortOp => (fileAbort s).1
  | .cancelOp => (fileCancel s).1
  | .setPaused b => { s with isPaused := b }
  | .markCompletedOp n => markChunksCompleted s n
  | .chunkErrorOp => (errorHandler s).1
  | .retryOp => bootstrapState s
  | .sendStartOp i =>
    updChunk s i (fun c => { c with xhr := some ⟨1, 0⟩, loaded := 0, pendingRetry := false })
  | .xhrProgressOp i bytes => updChunk s i (fun c => { c with loaded := bytes })
  | .xhrDoneOp i code => updChunk s i (fun c => { c with xhr := some ⟨4, code⟩ })
  | .chunkRetryStepOp i delayed =>
    updChunk s i (fun c => { chunkAbort c with retries := c.retries + 1, pendingRetry := delayed })

/-- Apply a sequence of file operations. -/
def applyOps (s : FileState) (ops : List FileOp) : FileState := ops.foldl applyOp s

/-- Scheduler events of the completion tracking in dist/main.js. -/
inductive SchedEvent where
  | categoryComplete (cat : Nat)
  | complete
deriving DecidableEq, Repr

/-- The completion-tracking state of the `Resumable` scheduler: the declared
categories, the per-category file lists, and the categories whose upload was
not yet completed. -/
structure SchedState where
  fileCategories : List Nat
  files : Nat → List FileState
  uncompletedFileCategories : List Nat

/-- Length of `getFilesOfAllCategories()`. -/
def totalFileCount (s : SchedState) : Nat :=
  (s.fileCategories.map (fun cat => (s.files cat).length)).sum

/-- Condition under which `checkUploadComplete` keeps a category in the
uncompleted set: it has files and not all of them are complete. -/
def keepCat (s : SchedState) (cat : Nat) : Bool :=
  !((s.files cat).length == 0) && !((s.files cat).all isCompleteV)

/-- Condition under which `checkUploadComplete` fires `categoryComplete`
for a category: it has files and all of them are complete. -/
def emitCat (s : SchedState) (cat : Nat) : Bool :=
  !((s.files cat).length == 0) && ((s.files cat).all isCompleteV)

/-- `Resumable.checkUploadComplete()` of dist/main.js: return early when no
files exist at all; otherwise walk the uncompleted categories in order,
skipping (and thereby silently dropping) empty ones, firing
`categoryComplete` for completed ones, keeping the rest; finally fire
`complete` when the resulting uncompleted set is empty. -/
def checkUploadComplete (s : SchedState) : SchedState × List SchedEvent :=
  if totalFileCount s = 0 then (s, [])
  else
    let step := s.uncompletedFileCategories.foldl
      (fun (acc : List Nat × List SchedEvent) cat =>
        if (s.files cat).length == 0 then acc
        else if (s.files cat).all isCompleteV then
          (acc.1, acc.2 ++ [SchedEvent.categoryComplete cat])
        else (acc.1 ++ [cat], acc.2))
      ([], [])
    ({ s with uncompletedFileCategories := step.1 },
      step.2 ++ if step.1.isEmpty then [SchedEvent.complete] else [])

/-- A run of the completion tracker: completion checks (performed after
every file-success event) interleaved with arbitrary changes to a
category's file list (files added, chunks progressing, and so on). -/
inductive SchedOp where
  | check
  | setFiles (cat : Nat) (fs : List FileState)

/-- Semantics of one scheduler step. -/
def applySchedOp (s : SchedState) : SchedOp → SchedState × List SchedEvent
  | .check => checkUploadComplete s
  | .setFiles cat fs =>
    ({ s with files := fun c => if c = cat then fs else s.files c }, [])

/-- Execute a run, collecting the emitted events in order. -/
def execSched : SchedState → List SchedOp → SchedState × List SchedEvent
  | s, [] => (s, [])
  | s, op :: ops =>
    let r1 := applySchedOp s op
    let r2 := execSched r1.1 ops
    (r2.1, r1.2 ++ r2.2)

/-- An incoming file handle of the intake pipeline, with its unique
identifier already computed. -/
structure VFile where
  uid : Nat
  name : List Char
  mime : List Char
  size : Nat
deriving DecidableEq, Repr

/-- An admitted `ResumableFile` as far as the intake pipeline observes it:
its unique identifier and its category. -/
structure AFile where
  uid : Nat
  fileCategory : Nat
deriving DecidableEq, Repr

/-- Reasons of the `fileProcessingFailed` signal. -/
inductive FailReason where
  | unknownFileCategory
  | duplicate
  | fileType
  | minFileSize
  | maxFileSize
  | validation
  | maxFiles
deriving DecidableEq, Repr

/-- Events emitted by the intake pipeline. -/
inductive IntakeEvent where
  | fileProcessingFailed (file : Option VFile) (reason : FailReason)
  | fileAdded (f : VFile)
  | filesAdded (accepted : List VFile) (skipped : List VFile)
deriving DecidableEq, Repr

/-- Intake-relevant state and configuration of the `Resumable` scheduler. -/
structure IntakeState where
  fileCategories : List Nat
  files : Nat → List AFile
  maxFiles : Option Nat
  fileTypes : Nat → List (List Char)
  minFileSize : Option Nat
  maxFileSize : Option Nat
  validators : List Char → Option (VFile → Bool)

/-- `type.indexOf('*')`, used as the length of the compared prefixes. -/
def starPrefixLen (t : List Char) : Nat :=
  (t.findIdx? (fun ch => ch == '*')).getD t.length

/-- One disjunct of the allowed-file-type check of `validateFiles`:
extension equality, or (for a MIME type) wildcard prefix match or full
MIME equality. -/
def typeMatches (fileExt fileType t : List Char) : Bool :=
  fileExt == t ||
  (t.contains '/' &&
    ((t.contains '*' && fileType.take (starPrefixLen t) == t.take (starPrefixLen t)) ||
      fileType == t))

/-- `file.name.split('.').pop().toLowerCase()`. -/
def jsFileExtension (name : List Char) : List Char :=
  ((name.splitOn '.').getLastD []).map Char.toLower

/-- The sequence of per-file checks of `validateFiles`, in source order:
already-added duplicate, allowed file type, minimum size, maximum size,
custom per-extension validator. Returns the failure reason, or `none` when
the file passes. -/
def checkFile (st : IntakeState) (cat : Nat) (f : VFile) : Option FailReason :=
  if (st.files cat).any (fun a => a.uid == f.uid) then some .duplicate
  else
    let fileType := f.mime.map Char.toLower
    let fileExt := jsFileExtension f.name
    if !(st.fileTypes cat).isEmpty &&
        !((st.fileTypes cat).any (fun t => typeMatches fileExt fileType t)) then
      some .fileType
    else if st.minFileSize.elim false (fun m => decide (f.size < m)) then some .minFileSize
    else if st.maxFileSize.elim false (fun m => decide (m < f.size)) then some .maxFileSize
    else
      match st.validators fileExt with
      | some v => if v f then none else some .validation
      | none => none

/-- `Helpers.uniqBy` on the unique identifiers, with a seen-set accumulator:
returns the kept files (first occurrence of each identifier, in order) and
the dropped duplicates (in order). -/
def uniqByUid : List VFile → List Nat → List VFile × List VFile
  | [], _ => ([], [])
  | f :: fs, seen =>
    if f.uid ∈ seen then
      let r := uniqByUid fs seen
      (r.1, f :: r.2)
    else
      let r := uniqByUid fs (f.uid :: seen)
      (f :: r.1, r.2)

/-- `files.filter((_v, index) => results[index])`: a missing result (the
results list being shorter than the files list) drops the file, like the
falsy `undefined` in the source. -/
def filterByResults : List VFile → List Bool → List VFile
  | [], _ => []
  | _ :: _, [] => []
  | f :: fs, b :: bs => if b then f :: filterByResults fs bs else filterByResults fs bs

/-- `Resumable.validateFiles(files, fileCategory)` of dist/main.js: reject
an unknown category; deduplicate the batch by identifier (firing a
`duplicate` failure per dropped file); compute one validation result per
deduplicated file (firing a typed failure per failing file); and filter the
original `files` list by the results, pairing result `i` with input
position `i`. -/
def validateFiles (st : IntakeState) (files : List VFile) (cat : Nat) :
    Option (List VFile) × List IntakeEvent :=
  if cat ∉ st.fileCategories then
    (none, [IntakeEvent.fileProcessingFailed none .unknownFileCategory])
  else
    let uq := uniqByUid files []
    let results := uq.1.map (fun f => checkFile st cat f)
    (some (filterByResults files (results.map Option.isNone)),
      uq.2.map (fun f => IntakeEvent.fileProcessingFailed (some f) .duplicate)
        ++ (uq.1.zip results).filterMap (fun p =>
          match p.2 with
          | some r => some (IntakeEvent.fileProcessingFailed (some p.1) r)
          | none => none))

/-- `findIndex` plus `splice(i, 1)` of `Resumable.removeFile`: remove the
first file with the given identifier. -/
def removeFirstUid : List AFile → Nat → List AFile
  | [], _ => []
  | a :: rest, u => if a.uid = u then rest else a :: removeFirstUid rest u

/-- `Resumable.removeFile(file)`: remove the file from the list of its own
category. -/
def removeFile (st : IntakeState) (f : AFile) : IntakeState :=
  { st with files := (fun c =>
      if c = f.fileCategory then removeFirstUid (st.files f.fileCategory) f.uid
      else st.files c) }

/-- Length of `getFilesOfAllCategories()` in the intake model. -/
def totalAdmitted (st : IntakeState) : Nat :=
  (st.fileCategories.map (fun cat => (st.files cat).length)).sum

/-- The tail of `appendFilesFromFileList` after the max-files policy:
validate the batch, admit the validated files into the target category
(firing `fileAdded` per file), and fire one `filesAdded(accepted, skipped)`
event unless both lists are empty. -/
def admitFiles (st : IntakeState) (batch : List VFile) (cat : Nat) :
    IntakeState × List IntakeEvent :=
  let v := validateFiles st batch cat
  match v.1 with
  | none => (st, v.2)
  | some validated =>
    let skipped := batch.filter (fun f => !(validated.contains f))
    let st2 := { st with files := (fun c =>
        if c = cat then st.files cat ++ validated.map (fun f => AFile.mk f.uid cat)
        else st.files c) }
    (st2, v.2 ++ validated.map (fun f => IntakeEvent.fileAdded f)
      ++ (if validated.isEmpty && skipped.isEmpty then []
          else [IntakeEvent.filesAdded validated skipped]))

/-- `Resumable.appendFilesFromFileList(fileList, event, fileCategory)` of
dist/main.js. The max-files guard replaces `this.files[fileCategory][0]`
when the cap is 1, exactly one file exists overall and the batch has one
file; when the target category is empty this calls
`removeFile(undefined)`, which throws (`.error ()`). Over the cap in any
other constellation, the whole batch is rejected with a `maxFiles`
failure. -/
def appendFilesFromFileList (st : IntakeState) (batch : List VFile) (cat : Nat) :
    Except Unit (IntakeState × List IntakeEvent) :=
  if cat ∉ st.fileCategories then
    .ok (st, [IntakeEvent.fileProcessingFailed none .unknownFileCategory])
  else if st.maxFiles.elim false (fun m => decide (m < batch.length + totalAdmitted st)) then
    if st.maxFiles = some 1 ∧ totalAdmitted st = 1 ∧ batch.length = 1 then
      match (st.files cat).head? with
      | none => .error ()
      | some f0 => .ok (admitFiles (removeFile st f0) batch cat)
    else
      .ok (st, [IntakeEvent.fileProcessingFailed none .maxFiles])
  else
    .ok (admitFiles st batch cat)

/-- Default option set as in the source. -/
def defaultOpts : ChunkOptions := {}

/-- Small options: one-byte chunks, for concrete example states. -/
def tinyOpts : ChunkOptions := { chunkSize := 1 }

/-- A chunk whose request finished with HTTP 503 (transient failure) and
whose retries are not exhausted. -/
def chunkDone503 : ChunkState :=
  { mkChunk defaultOpts 4 0 with tested := true, loaded := 2, xhr := some ⟨4, 503⟩ }

/-- A chunk whose request finished without an HTTP status (status 0, e.g. a
network error or timeout) after exhausting the retry budget. -/
def chunkNet0 : ChunkState :=
  { mkChunk { defaultOpts with chunkSize := 4 } 8 0 with
    tested := true, retries := 100, xhr := some ⟨4, 0⟩ }

/-- A chunk whose request finished with HTTP 200. -/
def chunkOk200 : ChunkState :=
  { mkChunk { defaultOpts with chunkSize := 4 } 8 0 with
    tested := true, xhr := some ⟨4, 200⟩ }

/-- A two-chunk file (size 2, chunk size 1). -/
def fileTwoChunks : FileState := mkFile tinyOpts 2

/-- A one-chunk file (size 1, chunk size 1). -/
def fileOneChunk : FileState := mkFile tinyOpts 1

/-- `fileTwoChunks` after `markChunksCompleted(1)`. -/
def fileHalfDone : FileState := markChunksCompleted fileTwoChunks 1

/-- A file in its error state. -/
def fileErrored : FileState := (errorHandler fileTwoChunks).1

/-- A file whose single chunk is marked complete. -/
def fileAllDone : FileState :=
  { fileOneChunk with chunks := [markComplete (mkChunk tinyOpts 1 0)] }

/-- Scheduler state with one category `0` holding one completed file, all
of it still tracked as uncompleted. -/
def schedOneDone : SchedState :=
  { fileCategories := [0], files := fun _ => [fileAllDone],
    uncompletedFileCategories := [0] }

/-- Intake state with categories `0` and `1`, a single admitted file in
category `0`, and a max-file cap of 1. -/
def intakeCross : IntakeState :=
  { fileCategories := [0, 1]
    files := fun c => if c = 0 then [⟨7, 0⟩] else []
    maxFiles := some 1
    fileTypes := fun _ => []
    minFileSize := some 1
    maxFileSize := none
    validators := fun _ => none }

/-- A one-byte incoming file. -/
def incomingB : VFile := ⟨9, ['b'], [], 1⟩

/-- Intake state with one category and no limits beyond the default
minimum size. -/
def intakePlain : IntakeState :=
  { fileCategories := [0]
    files := fun _ => []
    maxFiles := none
    fileTypes := fun _ => []
    minFileSize := some 1
    maxFileSize := none
    validators := fun _ => none }

/-- A batch of two files with distinct identifiers; the second is empty and
fails the minimum-size check. -/
def batchTwo : List VFile := [⟨1, ['a'], [], 3⟩, ⟨2, ['c'], [], 0⟩]

lemma jsCeilDiv_eq_ceilDiv (a b : Nat) : jsCeilDiv a b = a ⌈/⌉ b := rfl

lemma le_jsCeilDiv_mul (S C : Nat) (hC : 0 < C) : S ≤ jsCeilDiv S C * C := by
  unfold jsCeilDiv
  have h1 := Nat.div_add_mod (S + C - 1) C
  have h2 := Nat.mod_lt (S + C - 1) hC
  rw [Nat.mul_comm]
  generalize C * ((S + C - 1) / C) = A at h1 ⊢
  omega

lemma jsCeilDiv_mul_lt (S C i : Nat) (hC : 0 < C) (h : i + 1 < jsCeilDiv S C) :
    (i + 1) * C < S := by
  unfold jsCeilDiv at h
  have h2 : i + 1 + 1 ≤ (S + C - 1) / C := h
  have h3 : (i + 1 + 1) * C ≤ S + C - 1 := (Nat.le_div_iff_mul_le hC).mp h2
  have h4 : (i + 1 + 1) * C = (i + 1) * C + C := by ring
  generalize (i + 1) * C = A at h3 h4 ⊢
  omega

lemma max_one_cases (n : Nat) :
    (1 ≤ n ∧ max n 1 = n) ∨ (n ≤ 1 ∧ max n 1 = 1) := by
  rcases Nat.le_total 1 n with h | h
  · exact Or.inl ⟨h, Nat.max_eq_left h⟩
  · exact Or.inr ⟨h, Nat.max_eq_right h⟩

lemma bootstrapChunks_length (opts : ChunkOptions) (S : Nat) :
    (bootstrapChunks opts S).length = max (jsCeilDiv S opts.chunkSize) 1 := by
  simp [bootstrapChunks]

lemma bootstrapChunks_getElem (opts : ChunkOptions) (S : Nat) (i : Nat)
    (h : i < (bootstrapChunks opts S).length) :
    (bootstrapChunks opts S)[i] = mkChunk opts S i := by
  simp [bootstrapChunks]

lemma bootstrapChunks_get (opts : ChunkOptions) (S : Nat) (i : Nat)
    (h : i < (bootstrapChunks opts S).length) :
    (bootstrapChunks opts S).get ⟨i, h⟩ = mkChunk opts S i := by
  rw [List.get_eq_getElem, bootstrapChunks_getElem]

/-- Telescoping sum of chunk lengths. -/
lemma sum_chunk_lengths (S C : Nat) :
    ∀ k, ((List.range k).map (fun i => min S ((i + 1) * C) - i * C)).sum = min S (k * C) := by
  intro k
  induction k with
  | zero => simp
  | succ k ih =>
    rw [List.range_succ, List.map_append, List.sum_append, ih]
    simp only [List.map_singleton, List.sum_singleton]
    have h1 : (k + 1) * C = k * C + C := by ring
    generalize k * C = A at h1 ⊢
    omega

/-- Claim C1: `bootstrap()` creates exactly `max(ceil(S/C), 1)` chunks (one
chunk for a zero-byte file); the chunk at offset `i` has byte range
`[i*C, min(S, (i+1)*C))`; the ranges are contiguous, start at `0`, end at
`S`, are monotone (hence non-overlapping, covering `[0,S)` exactly once),
and their lengths sum to `S`. -/
theorem C1_bootstrap_chunk_geometry (opts : ChunkOptions) (S : Nat)
    (hC : 0 < opts.chunkSize) :
    (bootstrapChunks opts S).length = max (S ⌈/⌉ opts.chunkSize) 1 ∧
    (S = 0 → (bootstrapChunks opts S).length = 1) ∧
    (∀ i (h : i < (bootstrapChunks opts S).length),
      ((bootstrapChunks opts S).get ⟨i, h⟩).startByte = i * opts.chunkSize ∧
      ((bootstrapChunks opts S).get ⟨i, h⟩).endByte = min S ((i + 1) * opts.chunkSize)) ∧
    (∀ i (h : i + 1 < (bootstrapChunks opts S).length)
        (h2 : i < (bootstrapChunks opts S).length),
      ((bootstrapChunks opts S).get ⟨i, h2⟩).endByte
        = ((bootstrapChunks opts S).get ⟨i + 1, h⟩).startByte) ∧
    (∀ i (h : i < (bootstrapChunks opts S).length),
      ((bootstrapChunks opts S).get ⟨i, h⟩).startByte
          ≤ ((bootstrapChunks opts S).get ⟨i, h⟩).endByte ∧
      ((bootstrapChunks opts S).get ⟨i, h⟩).endByte ≤ S) ∧
    (∀ h : bootstrapChunks opts S ≠ [],
      ((bootstrapChunks opts S).getLast h).endByte = S) ∧
    ((bootstrapChunks opts S).map (fun c => c.endByte - c.startByte)).sum = S := by
  set C := opts.chunkSize with hCdef
  have hlen := bootstrapChunks_length opts S
  have hmaxmul : S ≤ max (jsCeilDiv S C) 1 * C := by
    have hcov := le_jsCeilDiv_mul S C hC
    rcases max_one_cases (jsCeilDiv S C) with ⟨hm1, hm⟩ | ⟨hm1, hm⟩
    · rw [hm]; exact hcov
    · rw [hm]
      calc S ≤ jsCeilDiv S C * C := hcov
      _ ≤ 1 * C := Nat.mul_le_mul_right C hm1
  refine ⟨by rw [hlen, jsCeilDiv_eq_ceilDiv], ?_, ?_, ?_, ?_, ?_, ?_⟩
  · intro hS
    rw [hlen, hS]
    have h0 : jsCeilDiv 0 C = 0 := by
      unfold jsCeilDiv
      exact Nat.div_eq_of_lt (by omega)
    rw [h0]
    omega
  · intro i h
    rw [bootstrapChunks_get]
    exact ⟨rfl, rfl⟩
  · intro i h h2
    rw [bootstrapChunks_get, bootstrapChunks_get]
    show min S ((i + 1) * C) = (i + 1) * C
    rw [hlen] at h
    have hub : (i + 1) * C < S := by
      rcases max_one_cases (jsCeilDiv S C) with ⟨hm1, hm⟩ | ⟨hm1, hm⟩
      · rw [hm] at h
        exact jsCeilDiv_mul_lt S C i hC h
      · rw [hm] at h
        omega
    exact Nat.min_eq_right (Nat.le_of_lt hub)
  · intro i h
    rw [bootstrapChunks_get]
    constructor
    · show i * C ≤ min S ((i + 1) * C)
      rw [hlen] at h
      have hstart : i * C ≤ S := by
        by_cases hz : i = 0
        · simp [hz]
        · rcases max_one_cases (jsCeilDiv S C) with ⟨hm1, hm⟩ | ⟨hm1, hm⟩
          · rw [hm] at h
            have hi1 : (i - 1) + 1 < jsCeilDiv S C := by omega
            have hlt := jsCeilDiv_mul_lt S C (i - 1) hC hi1
            have he2 : (i - 1 + 1) * C = i * C := by
              congr 1
              omega
            omega
          · rw [hm] at h
            omega
      have hmul : i * C ≤ (i + 1) * C := by
        have : (i + 1) * C = i * C + C := by ring
        omega
      exact le_min hstart hmul
    · show min S ((i + 1) * C) ≤ S
      exact Nat.min_le_left _ _
  · intro hne
    have hlpos : 0 < (bootstrapChunks opts S).length := List.length_pos.mpr hne
    rw [List.getLast_eq_getElem, bootstrapChunks_getElem]
    show min S (((bootstrapChunks opts S).length - 1 + 1) * C) = S
    rw [hlen] at hlpos ⊢
    have hk : max (jsCeilDiv S C) 1 - 1 + 1 = max (jsCeilDiv S C) 1 := by omega
    rw [hk]
    exact Nat.min_eq_left hmaxmul
  · unfold bootstrapChunks
    rw [List.map_map]
    have hmap : ((fun c : ChunkState => c.endByte - c.startByte) ∘ fun offset => mkChunk opts S offset)
        = fun i => min S ((i + 1) * C) - i * C := by
      funext i
      rfl
    rw [hmap, sum_chunk_lengths]
    exact Nat.min_eq_left hmaxmul

/-- Witness for C1 at `S = 5`, `C = 2` (three chunks `[0,2) [2,4) [4,5)`). -/
theorem C1_bootstrap_chunk_geometry_witness :
    0 < (2 : Nat) ∧
    (bootstrapChunks { chunkSize := 2 } 5).length = max ((5 : Nat) ⌈/⌉ 2) 1 := by
  refine ⟨by decide, ?_⟩
  exact (C1_bootstrap_chunk_geometry { chunkSize := 2 } 5 (by decide)).1

/-- Claim C2: the status computation follows the ordered decision table of
the source: `pendingRetry` gives `UPLOADING`; else `isMarkedComplete` gives
`SUCCESS`; else no request handle gives `PENDING`; else an unfinished
request gives `UPLOADING`; else HTTP 200/201 gives `SUCCESS`; else a
configured permanent-error code or an exhausted retry budget gives `ERROR`;
in every remaining case the request handle is reset and `PENDING` is
reported. -/
theorem C2_status_decision_table (c : ChunkState) :
    (c.pendingRetry = true → chunkStatus c = (.uploading, c)) ∧
    (c.pendingRetry = false → c.isMarkedComplete = true → chunkStatus c = (.success, c)) ∧
    (c.pendingRetry = false → c.isMarkedComplete = false → c.xhr = none →
      chunkStatus c = (.pending, c)) ∧
    (∀ x, c.pendingRetry = false → c.isMarkedComplete = false → c.xhr = some x →
      x.readyState < 4 → chunkStatus c = (.uploading, c)) ∧
    (∀ x, c.pendingRetry = false → c.isMarkedComplete = false → c.xhr = some x →
      4 ≤ x.readyState → (x.status = 200 ∨ x.status = 201) →
      chunkStatus c = (.success, c)) ∧
    (∀ x, c.pendingRetry = false → c.isMarkedComplete = false → c.xhr = some x →
      4 ≤ x.readyState → ¬(x.status = 200 ∨ x.status = 201) →
      (x.status ∈ c.permanentErrors ∨ c.maxChunkRetries ≤ c.retries) →
      chunkStatus c = (.error, c)) ∧
    (∀ x, c.pendingRetry = false → c.isMarkedComplete = false → c.xhr = some x →
      4 ≤ x.readyState → ¬(x.status = 200 ∨ x.status = 201) →
      x.status ∉ c.permanentErrors → c.retries < c.maxChunkRetries →
      chunkStatus c = (.pending, { c with xhr := none })) := by
  refine ⟨?_, ?_, ?_, ?_, ?_, ?_, ?_⟩
  · intro h1
    simp [chunkStatus, h1]
  · intro h1 h2
    simp [chunkStatus, h1, h2]
  · intro h1 h2 h3
    simp [chunkStatus, h1, h2, h3]
  · intro x h1 h2 h3 h4
    simp [chunkStatus, h1, h2, h3, h4]
  · intro x h1 h2 h3 h4 h5
    simp [chunkStatus, h1, h2, h3, Nat.not_lt.mpr h4, h5]
  · intro x h1 h2 h3 h4 h5 h6
    simp [chunkStatus, h1, h2, h3, Nat.not_lt.mpr h4, h5, h6]
  · intro x h1 h2 h3 h4 h5 h6 h7
    simp [chunkStatus, chunkAbort, h1, h2, h3, Nat.not_lt.mpr h4, h5, h6,
      Nat.not_le.mpr h7]

/-- Witness for C2: a finished HTTP 503 with retries left takes the final
row (reset the handle, report `PENDING`). -/
theorem C2_status_decision_table_witness :
    chunkStatus chunkDone503 = (.pending, { chunkDone503 with xhr := none }) :=
  (C2_status_decision_table chunkDone503).2.2.2.2.2.2 ⟨4, 503⟩ rfl rfl rfl
    (by decide) (by decide) (by decide) (by decide)

/-- Claim C9 (amended): reading the `status` getter never changes `retries`,
`pendingRetry`, `tested`, `isMarkedComplete` or `loaded`, and changes the
state at most by clearing the request handle (the transient-failure branch
aborts the request); a second read with no intervening operation returns
the same value and changes nothing further. The read is NOT fully pure:
see the counterexample. -/
theorem C9_status_read_effects (c : ChunkState) :
    (chunkStatus c).2.retries = c.retries ∧
    (chunkStatus c).2.pendingRetry = c.pendingRetry ∧
    (chunkStatus c).2.tested = c.tested ∧
    (chunkStatus c).2.isMarkedComplete = c.isMarkedComplete ∧
    (chunkStatus c).2.loaded = c.loaded ∧
    ((chunkStatus c).2 = c ∨ (chunkStatus c).2 = chunkAbort c) ∧
    chunkStatus ((chunkStatus c).2) = ((chunkStatus c).1, (chunkStatus c).2) := by
  by_cases h1 : c.pendingRetry
  · simp [chunkStatus, h1]
  · by_cases h2 : c.isMarkedComplete
    · simp [chunkStatus, h1, h2]
    · rcases hx : c.xhr with _ | x
      · simp [chunkStatus, h1, h2, hx]
      · by_cases h4 : x.readyState < 4
        · simp [chunkStatus, h1, h2, hx, h4]
        · by_cases h5 : x.status = 200 ∨ x.status = 201
          · simp [chunkStatus, h1, h2, hx, h4, h5]
          · by_cases h6 : x.status ∈ c.permanentErrors ∨ c.maxChunkRetries ≤ c.retries
            · simp [chunkStatus, h1, h2, hx, h4, h5, h6]
            · simp [chunkStatus, chunkAbort, h1, h2, hx, h4, h5, h6]

/-- Counterexample to C9 as stated: on a finished transient failure
(HTTP 503, retries left) the status read clears the request handle, so the
chunk state does NOT stay unchanged. -/
theorem C9_counterexample :
    (chunkStatus chunkDone503).2 ≠ chunkDone503 ∧
    (chunkStatus chunkDone503).2.xhr = none ∧
    chunkDone503.xhr = some ⟨4, 503⟩ := by decide

/-- Claim C7 (amended): in `SUCCESS` the progress is exactly 1
(resp. the chunk's share `(endByte-startByte)/fileSize` when `relative`);
in `ERROR` the same value is additionally multiplied by `0.95 = 19/20`
exactly when the finished request carries no HTTP status (status 0, e.g. a
network error after retry exhaustion) — so an `ERROR` chunk can report
`0.95` instead of 1; with a pending retry the progress is 0. -/
theorem C7_terminal_progress (c : ChunkState) (relative : Bool) :
    ((chunkStatus c).1 = .success →
      (chunkProgress c relative).1 = (if relative then chunkShare c else 1)) ∧
    ((chunkStatus c).1 = .error →
      (chunkProgress c relative).1 =
        (if relative then chunkShare c else 1) * (if xhrNoStatus c then 19 / 20 else 1)) ∧
    (c.pendingRetry = true → (chunkProgress c relative).1 = 0) := by
  by_cases h1 : c.pendingRetry
  · simp [chunkStatus, chunkProgress, h1]
  · by_cases h2 : c.isMarkedComplete
    · simp [chunkStatus, chunkProgress, h1, h2]
    · rcases hx : c.xhr with _ | x
      · simp [chunkStatus, chunkProgress, h1, h2, hx]
      · by_cases h4 : x.readyState < 4
        · simp [chunkStatus, chunkProgress, h1, h2, hx, h4]
        · by_cases h5 : x.status = 200 ∨ x.status = 201
          · have h0 : ¬ x.status = 0 := by
              rcases h5 with h | h <;> omega
            simp [chunkStatus, chunkProgress, xhrNoStatus, h1, h2, hx, h4, h5, h0]
          · by_cases h6 : x.status ∈ c.permanentErrors ∨ c.maxChunkRetries ≤ c.retries
            · by_cases h0 : x.status = 0
              · rw [h0] at h5 h6
                simp [chunkStatus, chunkProgress, xhrNoStatus, h1, h2, hx, h4, h5, h6, h0]
              · simp [chunkStatus, chunkProgress, xhrNoStatus, h1, h2, hx, h4, h5, h6, h0]
            · simp [chunkStatus, chunkProgress, h1, h2, hx, h4, h5, h6]

/-- Witness for C7: a finished HTTP 200 chunk reports progress 1. -/
theorem C7_terminal_progress_witness :
    (chunkStatus chunkOk200).1 = .success ∧ (chunkProgress chunkOk200 false).1 = 1 :=
  ⟨by decide, (C7_terminal_progress chunkOk200 false).1 (by decide)⟩

/-- Counterexample to C7 as stated: a chunk in `ERROR` (request finished
with status 0 after exhausting the retry budget) reports progress `19/20`,
not 1. -/
theorem C7_counterexample :
    (chunkStatus chunkNet0).1 = .error ∧
    (chunkProgress chunkNet0 false).1 = 19 / 20 ∧
    ¬((19 : ℚ) / 20 = 1) := by
  refine ⟨by decide, ?_, by norm_num⟩
  norm_num [chunkProgress, chunkStatus, chunkNet0, mkChunk, defaultOpts, xhrNoStatus, chunkShare]

/-- Claim C3: the chunk-error handler of a file sets the error flag,
discards the entire chunk array (after aborting the uploading chunks via
`fileAbort` inside `errorHandler`), and emits a `fileError` event; and a
file in its error state returns progress 1 on this and every subsequent
`progress()` call (the call leaves the state unchanged). -/
theorem C3_error_aggregation (s : FileState) :
    (errorHandler s).1.error = true ∧
    (errorHandler s).1.chunks = [] ∧
    FileEvent.fileError ∈ (errorHandler s).2 ∧
    (∀ t : FileState, t.error = true → progressCall t = (1, t)) := by
  refine ⟨rfl, rfl, ?_, ?_⟩
  · simp [errorHandler]
  · intro t ht
    simp [progressCall, ht]

/-- Witness for C3: a concrete errored file reports progress 1. -/
theorem C3_error_aggregation_witness :
    fileErrored.error = true ∧ progressCall fileErrored = (1, fileErrored) :=
  ⟨by decide, (C3_error_aggregation fileTwoChunks).2.2.2 fileErrored (by decide)⟩

lemma markUpTo_length (n : Nat) :
    ∀ (cs : List ChunkState) (i : Nat), (markUpTo n cs i).length = cs.length := by
  intro cs
  induction cs with
  | nil => intro i; rfl
  | cons c cs ih =>
    intro i
    simp [markUpTo, ih]

lemma markUpTo_get? (n : Nat) :
    ∀ (cs : List ChunkState) (i j : Nat),
      (markUpTo n cs i).get? j =
        if i + j < n then (cs.get? j).map markComplete else cs.get? j := by
  intro cs
  induction cs with
  | nil => intro i j; simp [markUpTo]
  | cons c cs ih =>
    intro i j
    cases j with
    | zero =>
      simp only [markUpTo, List.get?_cons_zero, Nat.add_zero]
      split_ifs <;> rfl
    | succ j =>
      simp only [markUpTo, List.get?_cons_succ]
      rw [ih (i + 1) j]
      exact if_congr (by omega) rfl rfl

/-- Claim C8 (amended): `markChunksCompleted(n)` marks exactly the chunks
with indices in `[0, n)` as complete, leaving every other chunk and all
other fields unchanged, but only when `n` is STRICTLY below the chunk
count; when `n` is greater than OR EQUAL to the chunk count the call is a
no-op (the guard is `chunks.length <= chunkNumber`, so passing exactly the
chunk count also does nothing). -/
theorem C8_mark_chunks_completed (s : FileState) (n : Nat) :
    (n < s.chunks.length →
      (markChunksCompleted s n).chunks.length = s.chunks.length ∧
      (∀ j, j < n →
        (markChunksCompleted s n).chunks.get? j = (s.chunks.get? j).map markComplete) ∧
      (∀ j, n ≤ j →
        (markChunksCompleted s n).chunks.get? j = s.chunks.get? j) ∧
      (markChunksCompleted s n).size = s.size ∧
      (markChunksCompleted s n).error = s.error ∧
      (markChunksCompleted s n).prevProgress = s.prevProgress ∧
      (markChunksCompleted s n).isPaused = s.isPaused) ∧
    (s.chunks.length ≤ n → markChunksCompleted s n = s) := by
  constructor
  · intro h
    have hg : ¬ s.chunks.length ≤ n := Nat.not_le.mpr h
    have hred : (markChunksCompleted s n).chunks = markUpTo n s.chunks 0 := by
      simp [markChunksCompleted, hg]
    refine ⟨?_, ?_, ?_, ?_, ?_, ?_, ?_⟩
    · rw [hred, markUpTo_length]
    · intro j hj
      rw [hred, markUpTo_get?]
      rw [if_pos (by omega)]
    · intro j hj
      rw [hred, markUpTo_get?]
      rw [if_neg (by omega)]
    · simp [markChunksCompleted, hg]
    · simp [markChunksCompleted, hg]
    · simp [markChunksCompleted, hg]
    · simp [markChunksCompleted, hg]
  · intro h
    simp [markChunksCompleted, h]

/-- Witness for C8: with two chunks and `n = 1`, the chunk list keeps its
length (and chunk 0 is marked). -/
theorem C8_mark_chunks_completed_witness :
    1 < fileTwoChunks.chunks.length ∧
    (markChunksCompleted fileTwoChunks 1).chunks.length = fileTwoChunks.chunks.length :=
  ⟨by decide, ((C8_mark_chunks_completed fileTwoChunks 1).1 (by decide)).1⟩

/-- Counterexample to C8 as stated: for a one-chunk file, `n = 1` does not
exceed the chunk count, yet `markChunksCompleted(1)` is a no-op and chunk 0
stays unmarked. -/
theorem C8_counterexample :
    1 ≤ fileOneChunk.chunks.length ∧
    markChunksCompleted fileOneChunk 1 = fileOneChunk ∧
    (∀ c ∈ (markChunksCompleted fileOneChunk 1).chunks, c.isMarkedComplete = false) := by
  decide

lemma progressCall_error (s : FileState) (h : s.error = true) :
    progressCall s = (1, s) := by
  simp [progressCall, h]

lemma progressCall_le_one (s : FileState) (h : s.prevProgress ≤ 1) :
    (progressCall s).1 ≤ 1 := by
  unfold progressCall
  by_cases he : s.error = true
  · simp [he]
  · rw [if_neg he]
    refine max_le h ?_
    split_ifs with h1 h2
    · exact le_refl 1
    · exact le_refl 1
    · calc (progressFold s.chunks).1 ≤ 99999 / 100000 := le_of_not_lt h2
      _ ≤ 1 := by norm_num

lemma progressCall_prev (s : FileState) (h : s.error = false) :
    (progressCall s).2.prevProgress = (progressCall s).1 ∧
    (progressCall s).2.error = false := by
  simp [progressCall, h]

lemma prev_le_progressCall (s : FileState) (h : s.prevProgress ≤ 1) :
    s.prevProgress ≤ (progressCall s).1 := by
  unfold progressCall
  by_cases he : s.error = true
  · simpa [he] using h
  · rw [if_neg he]
    exact le_max_left _ _

lemma applyOp_preserves (s : FileState) (op : FileOp) (hop : op ≠ .retryOp) :
    (applyOp s op).prevProgress = s.prevProgress ∧
    (s.error = true → (applyOp s op).error = true) := by
  cases op with
  | abortOp => exact ⟨rfl, fun h => h⟩
  | cancelOp => exact ⟨rfl, fun h => h⟩
  | setPaused b => exact ⟨rfl, fun h => h⟩
  | markCompletedOp n =>
    constructor
    · simp only [applyOp, markChunksCompleted]
      split_ifs <;> rfl
    · intro h
      simp only [applyOp, markChunksCompleted]
      split_ifs <;> exact h
  | chunkErrorOp => exact ⟨rfl, fun _ => rfl⟩
  | retryOp => exact absurd rfl hop
  | sendStartOp i => exact ⟨rfl, fun h => h⟩
  | xhrProgressOp i bytes => exact ⟨rfl, fun h => h⟩
  | xhrDoneOp i code => exact ⟨rfl, fun h => h⟩
  | chunkRetryStepOp i delayed => exact ⟨rfl, fun h => h⟩

lemma applyOps_preserves (ops : List FileOp) (hops : FileOp.retryOp ∉ ops) (s : FileState) :
    (applyOps s ops).prevProgress = s.prevProgress ∧
    (s.error = true → (applyOps s ops).error = true) := by
  induction ops generalizing s with
  | nil => exact ⟨rfl, fun h => h⟩
  | cons op ops ih =>
    have hop : op ≠ .retryOp := by
      intro h
      exact hops (h ▸ List.mem_cons_self _ _)
    have hops2 : FileOp.retryOp ∉ ops := fun h => hops (List.mem_cons_of_mem _ h)
    have h1 := applyOp_preserves s op hop
    have h2 := ih hops2 (applyOp s op)
    constructor
    · calc (applyOps s (op :: ops)).prevProgress
          = (applyOps (applyOp s op) ops).prevProgress := rfl
      _ = (applyOp s op).prevProgress := h2.1
      _ = s.prevProgress := h1.1
    · intro h
      exact h2.2 (h1.2 h)

/-- Claim C6 (amended): for every file state with a progress floor of at
most 1 and every sequence of operations between two `progress()` calls that
does NOT include `retry()` (which re-bootstraps the file and deliberately
resets the sticky floor), the second call returns at least the first
call's value: `progress()` takes the max with the persisted floor, the
operations never touch the floor, and the error fast path reports 1. -/
theorem C6_progress_monotone (s : FileState) (ops : List FileOp)
    (hprev : s.prevProgress ≤ 1) (hops : FileOp.retryOp ∉ ops) :
    (progressCall s).1 ≤ (progressCall (applyOps (progressCall s).2 ops)).1 := by
  by_cases he : s.error = true
  · have h1 : progressCall s = (1, s) := progressCall_error s he
    rw [h1]
    have h2 := (applyOps_preserves ops hops s).2 he
    rw [progressCall_error _ h2]
  · have he2 : s.error = false := by
      cases herr : s.error
      · rfl
      · exact absurd herr he
    have hp := progressCall_prev s he2
    have hr1le : (progressCall s).1 ≤ 1 := progressCall_le_one s hprev
    have hpres := applyOps_preserves ops hops (progressCall s).2
    have hs2prev : (applyOps (progressCall s).2 ops).prevProgress = (progressCall s).1 := by
      rw [hpres.1, hp.1]
    have hfloor : (applyOps (progressCall s).2 ops).prevProgress ≤ 1 := by
      rw [hs2prev]; exact hr1le
    have := prev_le_progressCall (applyOps (progressCall s).2 ops) hfloor
    rw [hs2prev] at this
    exact this

/-- Witness for C6 (amended): the empty operation sequence on a fresh
two-chunk file. -/
theorem C6_progress_monotone_witness :
    fileTwoChunks.prevProgress ≤ 1 ∧ FileOp.retryOp ∉ ([] : List FileOp) ∧
    (progressCall fileTwoChunks).1 ≤
      (progressCall (applyOps (progressCall fileTwoChunks).2 [])).1 :=
  ⟨by norm_num [fileTwoChunks, mkFile, bootstrapState], by simp,
    C6_progress_monotone fileTwoChunks [] (by norm_num [fileTwoChunks, mkFile, bootstrapState])
      (by simp)⟩

/-- Counterexample to C6 as stated: `retry()` (a public operation of the
file) resets the progress floor, so `progress()` drops from `1/2` back to
`0` across a `retry()`. -/
theorem C6_counterexample :
    (progressCall fileHalfDone).1 = 1 / 2 ∧
    (progressCall (applyOps (progressCall fileHalfDone).2 [FileOp.retryOp])).1 = 0 ∧
    ¬((1 : ℚ) / 2 ≤ 0) := by
  have hr2 : List.range 2 = [0, 1] := by decide
  have hne1 : (ChunkStatus.success = ChunkStatus.error) = False := eq_false (by decide)
  have hne2 : (ChunkStatus.pending = ChunkStatus.error) = False := eq_false (by decide)
  refine ⟨?_, ?_, by norm_num⟩
  · norm_num [fileHalfDone, fileTwoChunks, mkFile, bootstrapState, bootstrapChunks,
      jsCeilDiv, tinyOpts, mkChunk, markChunksCompleted, markUpTo, markComplete,
      progressCall, progressFold, chunkProgress, chunkStatus, chunkShare, xhrNoStatus,
      hr2, hne1, hne2, max_def]
  · norm_num [fileHalfDone, fileTwoChunks, mkFile, bootstrapState, bootstrapChunks,
      jsCeilDiv, tinyOpts, mkChunk, markChunksCompleted, markUpTo, markComplete,
      progressCall, progressFold, chunkProgress, chunkStatus, chunkShare, xhrNoStatus,
      applyOps, applyOp, hr2, hne1, hne2, max_def]

lemma emitCat_iff (s : SchedState) (c : Nat) :
    emitCat s c = true ↔ (s.files c ≠ [] ∧ (s.files c).all isCompleteV = true) := by
  unfold emitCat
  cases h0 : ((s.files c).length == 0) <;>
    cases h1 : ((s.files c).all isCompleteV) <;>
      simp_all [List.length_eq_zero, Nat.beq_eq_true_eq]

lemma emit_not_keep (s : SchedState) (c : Nat) (h : emitCat s c = true) :
    keepCat s c = false := by
  unfold emitCat at h
  unfold keepCat
  cases h0 : ((s.files c).length == 0) <;>
    cases h1 : ((s.files c).all isCompleteV) <;> simp_all

lemma check_fold (s : SchedState) :
    ∀ (l : List Nat) (a : List Nat) (b : List SchedEvent),
      l.foldl
        (fun (acc : List Nat × List SchedEvent) cat =>
          if (s.files cat).length == 0 then acc
          else if (s.files cat).all isCompleteV then
            (acc.1, acc.2 ++ [SchedEvent.categoryComplete cat])
          else (acc.1 ++ [cat], acc.2))
        (a, b)
      = (a ++ l.filter (keepCat s),
          b ++ (l.filter (emitCat s)).map SchedEvent.categoryComplete) := by
  intro l
  induction l with
  | nil => intro a b; simp
  | cons cat l ih =>
    intro a b
    by_cases h0 : ((s.files cat).length == 0) = true
    · have hk : keepCat s cat = false := by simp [keepCat, h0]
      have he : emitCat s cat = false := by simp [emitCat, h0]
      simp only [List.foldl_cons, if_pos h0]
      rw [ih]
      simp [List.filter_cons, hk, he]
    · by_cases h1 : ((s.files cat).all isCompleteV) = true
      · have hk : keepCat s cat = false := by simp [keepCat, h0, h1]
        have he : emitCat s cat = true := by simp [emitCat, h0, h1]
        simp only [List.foldl_cons, if_neg h0, if_pos h1]
        rw [ih]
        simp [List.filter_cons, hk, he]
      · have hk : keepCat s cat = true := by simp [keepCat, h0, h1]
        have he : emitCat s cat = false := by simp [emitCat, h0, h1]
        simp only [List.foldl_cons, if_neg h0, if_neg h1]
        rw [ih]
        simp [List.filter_cons, hk, he]

lemma checkComplete_spec (s : SchedState) (h : ¬ totalFileCount s = 0) :
    checkUploadComplete s =
      ({ s with uncompletedFileCategories :=
          s.uncompletedFileCategories.filter (keepCat s) },
        (s.uncompletedFileCategories.filter (emitCat s)).map SchedEvent.categoryComplete
          ++ if (s.uncompletedFileCategories.filter (keepCat s)).isEmpty
              then [SchedEvent.complete] else []) := by
  simp only [checkUploadComplete, if_neg h]
  rw [check_fold s s.uncompletedFileCategories [] []]
  simp

lemma check_emit_mem (s : SchedState) (c : Nat) :
    SchedEvent.categoryComplete c ∈ (checkUploadComplete s).2 ↔
      (¬ totalFileCount s = 0 ∧ c ∈ s.uncompletedFileCategories ∧ emitCat s c = true) := by
  by_cases h : totalFileCount s = 0
  · simp [checkUploadComplete, h]
  · rw [checkComplete_spec s h]
    simp only [List.mem_append, List.mem_map, List.mem_filter]
    constructor
    · rintro (⟨a, ⟨ha1, ha2⟩, ha3⟩ | hbad)
      · rcases SchedEvent.categoryComplete.inj ha3.symm with rfl
        exact ⟨h, ha1, ha2⟩
      · exfalso
        by_cases hemp : (s.uncompletedFileCategories.filter (keepCat s)).isEmpty
        · rw [if_pos hemp] at hbad
          simp at hbad
        · rw [if_neg hemp] at hbad
          simp at hbad
    · rintro ⟨_, hmem, hemit⟩
      exact Or.inl ⟨c, ⟨hmem, hemit⟩, rfl⟩

lemma check_pending_cases (s : SchedState) :
    (checkUploadComplete s).1.uncompletedFileCategories = s.uncompletedFileCategories ∨
    (checkUploadComplete s).1.uncompletedFileCategories =
      s.uncompletedFileCategories.filter (keepCat s) := by
  by_cases h : totalFileCount s = 0
  · left
    simp [checkUploadComplete, h]
  · right
    rw [checkComplete_spec s h]

lemma check_pending_nodup (s : SchedState) (h : s.uncompletedFileCategories.Nodup) :
    (checkUploadComplete s).1.uncompletedFileCategories.Nodup := by
  rcases check_pending_cases s with hc | hc <;> rw [hc]
  · exact h
  · exact h.filter _

lemma check_pending_monotone (s : SchedState) (c : Nat)
    (h : c ∉ s.uncompletedFileCategories) :
    c ∉ (checkUploadComplete s).1.uncompletedFileCategories := by
  rcases check_pending_cases s with hc | hc <;> rw [hc]
  · exact h
  · intro hmem
    exact h (List.mem_of_mem_filter hmem)

lemma check_emit_removes (s : SchedState) (c : Nat)
    (h : SchedEvent.categoryComplete c ∈ (checkUploadComplete s).2) :
    c ∉ (checkUploadComplete s).1.uncompletedFileCategories := by
  rcases (check_emit_mem s c).mp h with ⟨ht, hmem, hemit⟩
  rw [checkComplete_spec s ht]
  intro hbad
  have := (List.mem_filter.mp hbad).2
  rw [emit_not_keep s c hemit] at this
  exact Bool.false_ne_true this

lemma check_count_le_one (s : SchedState) (c : Nat)
    (hnd : s.uncompletedFileCategories.Nodup) :
    (checkUploadComplete s).2.count (SchedEvent.categoryComplete c) ≤ 1 := by
  by_cases h : totalFileCount s = 0
  · simp [checkUploadComplete, h]
  · rw [checkComplete_spec s h]
    rw [List.count_append]
    have h1 : ((s.uncompletedFileCategories.filter (emitCat s)).map
        SchedEvent.categoryComplete).count (SchedEvent.categoryComplete c)
        = (s.uncompletedFileCategories.filter (emitCat s)).count c := by
      apply List.count_map_of_injective
      intro a b hab
      exact SchedEvent.categoryComplete.inj hab
    have h2 : (s.uncompletedFileCategories.filter (emitCat s)).count c ≤ 1 :=
      List.nodup_iff_count_le_one.mp (hnd.filter _) c
    have h3 : (if (s.uncompletedFileCategories.filter (keepCat s)).isEmpty
        then [SchedEvent.complete] else []).count (SchedEvent.categoryComplete c) = 0 := by
      split_ifs <;> simp
    omega

lemma run_count_le (c : Nat) :
    ∀ (ops : List SchedOp) (s : SchedState), s.uncompletedFileCategories.Nodup →
      ((c ∉ s.uncompletedFileCategories →
        (execSched s ops).2.count (SchedEvent.categoryComplete c) = 0) ∧
        (execSched s ops).2.count (SchedEvent.categoryComplete c) ≤ 1) := by
  intro ops
  induction ops with
  | nil =>
    intro s h
    simp [execSched]
  | cons op ops ih =>
    intro s hnd
    cases op with
    | setFiles cat fs =>
      have hstep := ih { s with files := fun c2 => if c2 = cat then fs else s.files c2 } hnd
      simpa [execSched, applySchedOp] using hstep
    | check =>
      have hnd2 := check_pending_nodup s hnd
      have hrest := ih (checkUploadComplete s).1 hnd2
      have hsplit : (execSched s (SchedOp.check :: ops)).2
          = (checkUploadComplete s).2 ++ (execSched (checkUploadComplete s).1 ops).2 := by
        simp [execSched, applySchedOp]
      rw [hsplit, List.count_append]
      constructor
      · intro hc
        have h1 : (checkUploadComplete s).2.count (SchedEvent.categoryComplete c) = 0 := by
          rw [List.count_eq_zero]
          intro hmem
          exact hc ((check_emit_mem s c).mp hmem).2.1
        have h2 := hrest.1 (check_pending_monotone s c hc)
        omega
      · by_cases hm : SchedEvent.categoryComplete c ∈ (checkUploadComplete s).2
        · have h1 := check_count_le_one s c hnd
          have h2 := hrest.1 (check_emit_removes s c hm)
          omega
        · have h1 : (checkUploadComplete s).2.count (SchedEvent.categoryComplete c) = 0 :=
            List.count_eq_zero.mpr hm
          have h2 := hrest.2
          omega

/-- Claim C4 (amended): in every run of completion checks interleaved with
file-list changes, starting from a duplicate-free pending set: (1) each
category's category-complete signal is emitted at most once over the whole
run; (2) a single check emits the signal for a category exactly when files
exist at all, the category is still tracked as pending and it is non-empty
with every file complete (in particular a category with zero files never
emits, and a category dropped from tracking — by completing, or by being
observed empty at some check — never emits again); (3) an emitting check
removes the category from the pending set; (4) once the pending set is
empty it stays empty, and every subsequent check performed while at least
one file exists emits the overall-complete signal AGAIN — the source
re-fires `complete` on every later check rather than making them no-ops. -/
theorem C4_completion_tracking (s : SchedState) (ops : List SchedOp) (c : Nat)
    (hnd : s.uncompletedFileCategories.Nodup) :
    ((execSched s ops).2.count (SchedEvent.categoryComplete c) ≤ 1) ∧
    (SchedEvent.categoryComplete c ∈ (checkUploadComplete s).2 ↔
      (¬ totalFileCount s = 0 ∧ c ∈ s.uncompletedFileCategories ∧
        s.files c ≠ [] ∧ (s.files c).all isCompleteV = true)) ∧
    (SchedEvent.categoryComplete c ∈ (checkUploadComplete s).2 →
      c ∉ (checkUploadComplete s).1.uncompletedFileCategories) ∧
    (s.uncompletedFileCategories = [] →
      (checkUploadComplete s).1.uncompletedFileCategories = [] ∧
      (¬ totalFileCount s = 0 → (checkUploadComplete s).2 = [SchedEvent.complete])) := by
  refine ⟨(run_count_le c ops s hnd).2, ?_, check_emit_removes s c, ?_⟩
  · rw [check_emit_mem s c, emitCat_iff]
  · intro hemp
    by_cases h : totalFileCount s = 0
    · constructor
      · simp [checkUploadComplete, h, hemp]
      · intro hbad
        exact absurd h hbad
    · rw [checkComplete_spec s h]
      rw [hemp]
      exact ⟨rfl, fun _ => rfl⟩

/-- Witness for C4 (amended) on a concrete one-category run. -/
theorem C4_completion_tracking_witness :
    schedOneDone.uncompletedFileCategories.Nodup ∧
    (execSched schedOneDone [SchedOp.check]).2.count (SchedEvent.categoryComplete 0) ≤ 1 :=
  ⟨by decide, (C4_completion_tracking schedOneDone [SchedOp.check] 0 (by decide)).1⟩

/-- Counterexample to C4 as stated: after all categories complete (first
check: `categoryComplete 0` then `complete`, pending set emptied), the NEXT
completion check is not a no-op — it emits `complete` a second time. -/
theorem C4_counterexample :
    (execSched schedOneDone [SchedOp.check]).1.uncompletedFileCategories = [] ∧
    (execSched schedOneDone [SchedOp.check, SchedOp.check]).2.count SchedEvent.complete = 2 := by
  decide

lemma uniqByUid_nodup :
    ∀ (files : List VFile) (seen : List Nat),
      (files.map (fun f => f.uid)).Nodup → (∀ f ∈ files, f.uid ∉ seen) →
      uniqByUid files seen = (files, []) := by
  intro files
  induction files with
  | nil => intro seen _ _; rfl
  | cons f fs ih =>
    intro seen hnd hseen
    have hf : f.uid ∉ seen := hseen f (List.mem_cons_self f fs)
    have hnd1 : f.uid ∉ fs.map (fun g => g.uid) :=
      (List.nodup_cons.mp (by simpa using hnd)).1
    have hnd2 : (fs.map (fun g => g.uid)).Nodup :=
      (List.nodup_cons.mp (by simpa using hnd)).2
    have hseen2 : ∀ g ∈ fs, g.uid ∉ f.uid :: seen := by
      intro g hg
      simp only [List.mem_cons]
      rintro (he | hs)
      · exact hnd1 (he ▸ List.mem_map_of_mem _ hg)
      · exact hseen g (List.mem_cons_of_mem _ hg) hs
    unfold uniqByUid
    rw [if_neg hf, ih (f.uid :: seen) hnd2 hseen2]

lemma filterByResults_map (p : VFile → Bool) :
    ∀ (l : List VFile), filterByResults l (l.map p) = l.filter p := by
  intro l
  induction l with
  | nil => rfl
  | cons f fs ih =>
    cases h : p f <;> simp [filterByResults, List.filter_cons, h, ih]

/-- Claim C10: `validateFiles` filters the original input list by results
computed over the internally deduplicated list, pairing result `i` with
input position `i`; when all files of the batch have pairwise distinct
unique identifiers, the deduplication is the identity and the accepted
list is exactly the input files passing every check (already-added
duplicate, file type, minimum size, maximum size, custom validator). -/
theorem C10_validate_files (st : IntakeState) (files : List VFile) (cat : Nat)
    (hcat : cat ∈ st.fileCategories)
    (hnd : (files.map (fun f => f.uid)).Nodup) :
    (validateFiles st files cat).1 =
      some (files.filter (fun f => (checkFile st cat f).isNone)) := by
  unfold validateFiles
  rw [if_neg (by simp [hcat])]
  rw [uniqByUid_nodup files [] hnd (by intro f _; simp)]
  simp only [List.map_map]
  have hfil := filterByResults_map (fun f => (checkFile st cat f).isNone) files
  have hcomp : (Option.isNone ∘ fun f => checkFile st cat f)
      = (fun f => (checkFile st cat f).isNone) := rfl
  rw [hcomp, hfil]

/-- Witness for C10 on a concrete two-file batch with distinct identifiers
(the second file fails the minimum-size check). -/
theorem C10_validate_files_witness :
    (0 ∈ intakePlain.fileCategories) ∧
    (batchTwo.map (fun f => f.uid)).Nodup ∧
    (validateFiles intakePlain batchTwo 0).1 =
      some (batchTwo.filter (fun f => (checkFile intakePlain 0 f).isNone)) :=
  ⟨by decide, by decide, C10_validate_files intakePlain batchTwo 0 (by decide) (by decide)⟩

/-- Claim C5, evaluated at the failing input: with a max-file cap of 1, one
file already admitted in category 0 and a one-file batch aimed at category
1, the replacement branch of `appendFilesFromFileList` evaluates
`this.files['1'][0]` on an empty array and calls `removeFile(undefined)`,
which throws — modelled as `Except.error ()` — instead of replacing the
existing file as the claim (and the source's own comment) describe. -/
theorem C5_maxfiles_crash :
    intakeCross.maxFiles = some 1 ∧
    totalAdmitted intakeCross = 1 ∧
    appendFilesFromFileList intakeCross [incomingB] 1 = Except.error () :=
  ⟨rfl, rfl, rfl⟩
